import Mathlib

/-!
Verification development for the LOL compiler's runtime support library
(`src/support.h`, with `src/support.c` an earlier subset of the same
definitions).  The C runtime is shallowly embedded: the global mutable
state (`stack`, `top`, `stack_index`, `binds`, `binds_index`,
`context_stack`, the heap of closure-environment frames, the program
arguments and the crash message set by `fatalError`) becomes one record,
and every `sup*` procedure becomes a function on that record, translated
line by line from the source.  `fatalError` in the default build prints
the message and calls `exit(1)`; the model records the message and the
program-level `run` function executes no further operation once a crash
message is set.
-/

namespace LolRuntime

/-- The `struct ManagedType` descriptors.  In C these are pointers to
singleton descriptors (`type_number`, `type_string`, the `sup_builtin_*`
descriptors, and one compiler-generated descriptor per lambda); a
zero-initialized variable holds a null descriptor pointer, modelled by
`nullDesc`. -/
inductive TypeDesc where
  | nullDesc
  | number
  | string
  | builtinAdd
  | builtinSubtract
  | builtinEquals
  | builtinBitwiseOr
  | builtinBitwiseAnd
  | builtinLessThan
  | builtinProgramArgument
  | builtinStringToNumber
  | builtinNumberToString
  | builtinPutString
  | lambda (id : Nat)
deriving DecidableEq

/-- The `union ManagedVariableValue`: one 64-bit payload holding either an
`i64`, a `char *` to an owned string, or a `void *` context pointer into
the chain of heap frames.  String payloads carry their contents (the C
pointer's target); context payloads carry the address of a heap frame
(`none` models the null pointer). -/
inductive ManagedVariableValue where
  | num (n : Int)
  | str (s : String)
  | ctx (c : Option Nat)
deriving DecidableEq

/-- Reading the `.number` member of the union, as the builtins do without
checking the discriminant.  For a string or context payload the C program
reads the pointer's bit pattern, an address the source program does not
determine; the model abstracts that address to 0. -/
def asNumber : ManagedVariableValue → Int
  | .num n => n
  | .str _ => 0
  | .ctx _ => 0

/-- Reading the `.string` member of the union.  For a non-string payload
the C program reinterprets the word as a pointer; the model abstracts the
result to the empty string (no claim exercises that read). -/
def asString : ManagedVariableValue → String
  | .str s => s
  | .num _ => ""
  | .ctx _ => ""

/-- `struct ManagedVariable`: a type-descriptor pointer plus the payload. -/
structure ManagedVariable where
  type : TypeDesc
  v : ManagedVariableValue
deriving DecidableEq

/-- A zero-initialized `struct ManagedVariable` global: null descriptor,
all-zero payload word (read as the number 0). -/
def uninitVar : ManagedVariable := ⟨.nullDesc, .num 0⟩

/-- `struct HeapVariable`: one closure-environment frame, owning one
captured value and the address of the previous frame (`none` = null). -/
structure HeapVariable where
  previous : Option Nat
  v : ManagedVariable
deriving DecidableEq

/-- The whole global runtime state of `support.h`.  The two 1024-element C
arrays are modelled as total maps from indices to values (all slots
zero-initialized); the heap of frames is a list addressed by position, and
`gcAlloc` appends to it.  `crash_message` is the global set by
`fatalError`; `output` records the lines written by `puts`. -/
structure RtState where
  stack : Nat → ManagedVariable
  top : ManagedVariable
  stack_index : Nat
  binds : Nat → ManagedVariable
  binds_index : Nat
  context_stack : Option Nat
  frames : List HeapVariable
  program_args : List String
  output : List String
  crash_message : Option String

/-- Pointwise update of a modelled C array. -/
def setAt (f : Nat → ManagedVariable) (i : Nat) (v : ManagedVariable) :
    Nat → ManagedVariable :=
  fun j => if j = i then v else f j

/-- The state at program start: all globals zero-initialized, the argument
vector supplied by the process. -/
def initState (args : List String) : RtState :=
  { stack := fun _ => uninitVar
    top := uninitVar
    stack_index := 0
    binds := fun _ => uninitVar
    binds_index := 0
    context_stack := none
    frames := []
    program_args := args
    output := []
    crash_message := none }

/-- `fatalError`: record the message.  In the default build the C function
then calls `exit(1)`, so nothing after a `fatalError` ever executes; the
model's `run` function stops stepping once `crash_message` is set, and
each translated operation returns immediately at the point where the C
code would have exited. -/
def fatalError (message : String) (s : RtState) : RtState :=
  { s with crash_message := some message }

def call_number_error : String := "attempted to invoke a number"

def call_string_error : String := "attempted to invoke a string"

def too_few_arguments_error : String :=
  "attempting to read more program arguments than provided"

def string_to_number_error : String := "could not convert string to number"

/-- `gcAlloc` for a frame: the source just calls `malloc` (its comment:
the collector is a TODO and memory currently leaks), so allocation always
returns a fresh address — the end of the heap list — and never frees or
moves anything. -/
def gcAllocFrame (frames : List HeapVariable) (fr : HeapVariable) :
    List HeapVariable × Nat :=
  (frames ++ [fr], frames.length)

/-- `supStackDup`: `stack[stack_index] = top; stack_index++;` -/
def supStackDup (s : RtState) : RtState :=
  { s with stack := setAt s.stack s.stack_index s.top
           stack_index := s.stack_index + 1 }

/-- `supStackDrop`: `stack_index--; top = stack[stack_index];` -/
def supStackDrop (s : RtState) : RtState :=
  { s with stack_index := s.stack_index - 1
           top := s.stack (s.stack_index - 1) }

/-- `supPushNumber` -/
def supPushNumber (n : Int) (s : RtState) : RtState :=
  { supStackDup s with top := ⟨.number, .num n⟩ }

/-- `supPushString`: `strdup` copies the text into a fresh allocation; the
model keeps the contents. -/
def supPushString (src : String) (s : RtState) : RtState :=
  { supStackDup s with top := ⟨.string, .str src⟩ }

/-- `supPushLambda`: the new callable's context snapshot is the current
chain head, stored by pointer — no frame is copied. -/
def supPushLambda (lambda_type : TypeDesc) (s : RtState) : RtState :=
  { supStackDup s with top := ⟨lambda_type, .ctx s.context_stack⟩ }

/-- `supBind`: `binds_index++; binds[binds_index] = top; supStackDrop();` -/
def supBind (s : RtState) : RtState :=
  supStackDrop
    { s with binds_index := s.binds_index + 1
             binds := setAt s.binds (s.binds_index + 1) s.top }

/-- `supBindCaptured`: allocate a fresh frame via `gcAlloc`, link it to the
previous chain head, store the current top in it, advance the head, drop. -/
def supBindCaptured (s : RtState) : RtState :=
  let alloc := gcAllocFrame s.frames ⟨s.context_stack, s.top⟩
  supStackDrop { s with frames := alloc.1, context_stack := some alloc.2 }

/-- `supSet`: `binds[binds_index - n] = top; supStackDrop();` -/
def supSet (n : Nat) (s : RtState) : RtState :=
  supStackDrop { s with binds := setAt s.binds (s.binds_index - n) s.top }

/-- Walking `n` `previous`-links from a chain pointer, as the loops in
`supSetCaptured` and `supGetCaptured` do.  Returns the address reached, or
`none` when a null pointer would be dereferenced on the way. -/
def chainWalk (frames : List HeapVariable) : Option Nat → Nat → Option Nat
  | c, 0 => c
  | some a, n + 1 =>
    match frames.get? a with
    | some fr => chainWalk frames fr.previous n
    | none => none
  | none, _ + 1 => none

/-- `supSetCaptured`: walk `n` links from the chain head and overwrite that
frame's payload with the current top, then drop.  Dereferencing a null or
dangling context is undefined behaviour in the C source; the model leaves
the state unchanged there (no claim exercises it). -/
def supSetCaptured (n : Nat) (s : RtState) : RtState :=
  match chainWalk s.frames s.context_stack n with
  | some a =>
    match s.frames.get? a with
    | some fr => supStackDrop { s with frames := s.frames.set a ⟨fr.previous, s.top⟩ }
    | none => s
  | none => s

/-- `supGet`: `supStackDup(); top = binds[binds_index - n];` -/
def supGet (n : Nat) (s : RtState) : RtState :=
  { supStackDup s with top := s.binds (s.binds_index - n) }

/-- `supGetCaptured`: walk `n` links from the chain head, duplicate, and
load that frame's payload into the top cache. -/
def supGetCaptured (n : Nat) (s : RtState) : RtState :=
  match chainWalk s.frames s.context_stack n with
  | some a =>
    match s.frames.get? a with
    | some fr => { supStackDup s with top := fr.v }
    | none => s
  | none => s

/-- Signed 64-bit range, and two's-complement reinterpretation helpers:
`toBits` is the 64-bit pattern of an integer, `ofBits` reads a pattern
back as a signed value, `wrap64` is the composite wrap-around. -/
def i64min : Int := -(2 ^ 63)

def i64max : Int := 2 ^ 63 - 1

def toBits (x : Int) : Nat := (x % (2 ^ 64 : Int)).toNat

def ofBits (b : Nat) : Int :=
  if b < 2 ^ 63 then (b : Int) else (b : Int) - 2 ^ 64

def wrap64 (x : Int) : Int := ofBits (toBits x)

/-- `&` on `i64`: bitwise and of the two's-complement patterns. -/
def i64and (x y : Int) : Int := ofBits (Nat.land (toBits x) (toBits y))

/-- `|` on `i64`: bitwise or of the two's-complement patterns. -/
def i64or (x y : Int) : Int := ofBits (Nat.lor (toBits x) (toBits y))

/-- `supAddBuiltin`: pop the callable slot and one operand from the array,
re-reading the payloads as numbers without any discriminant check, and
leave the sum in the top cache. -/
def supAddBuiltin (s : RtState) : RtState :=
  let i1 := s.stack_index - 1
  let a := asNumber (s.stack i1).v
  let i2 := s.stack_index - 2
  { s with stack_index := i2
           top := ⟨.number, .num (wrap64 (a + asNumber (s.stack i2).v))⟩ }

/-- `supSubtractBuiltin` -/
def supSubtractBuiltin (s : RtState) : RtState :=
  let i1 := s.stack_index - 1
  let a := asNumber (s.stack i1).v
  let i2 := s.stack_index - 2
  { s with stack_index := i2
           top := ⟨.number, .num (wrap64 (asNumber (s.stack i2).v - a))⟩ }

/-- `supEqualsBuiltin`: `==` produces 1 or 0. -/
def supEqualsBuiltin (s : RtState) : RtState :=
  let i1 := s.stack_index - 1
  let a := asNumber (s.stack i1).v
  let i2 := s.stack_index - 2
  { s with stack_index := i2
           top := ⟨.number, .num (if asNumber (s.stack i2).v = a then 1 else 0)⟩ }

/-- `supBitwiseOrBuiltin` -/
def supBitwiseOrBuiltin (s : RtState) : RtState :=
  let i1 := s.stack_index - 1
  let a := asNumber (s.stack i1).v
  let i2 := s.stack_index - 2
  { s with stack_index := i2
           top := ⟨.number, .num (i64or (asNumber (s.stack i2).v) a)⟩ }

/-- `supBitwiseAndBuiltin` -/
def supBitwiseAndBuiltin (s : RtState) : RtState :=
  let i1 := s.stack_index - 1
  let a := asNumber (s.stack i1).v
  let i2 := s.stack_index - 2
  { s with stack_index := i2
           top := ⟨.number, .num (i64and (asNumber (s.stack i2).v) a)⟩ }

/-- `supLessThanBuiltin`: `<` produces 1 or 0. -/
def supLessThanBuiltin (s : RtState) : RtState :=
  let i1 := s.stack_index - 1
  let a := asNumber (s.stack i1).v
  let i2 := s.stack_index - 2
  { s with stack_index := i2
           top := ⟨.number, .num (if asNumber (s.stack i2).v < a then 1 else 0)⟩ }

/-- `supProgramArgumentBuiltin`: pop the callable slot, read the index,
drop, range-check against `program_args_count` (fatal on failure — the
process exits, so the trailing push never runs), otherwise push a copy of
the requested argument string. -/
def supProgramArgumentBuiltin (s : RtState) : RtState :=
  let i1 := s.stack_index - 1
  let index := asNumber (s.stack i1).v
  let s1 := supStackDrop { s with stack_index := i1 }
  if index < 0 ∨ (s.program_args.length : Int) ≤ index then
    fatalError too_few_arguments_error s1
  else
    supPushString (s1.program_args.getD index.toNat "") s1

/-- The decimal digit character for `d < 10` (ASCII `'0' + d`). -/
def digitChar (d : Nat) : Char := Char.ofNat (48 + d)

/-- Decimal digits of `n`, most significant first, with `fuel` bounding the
recursion depth (structural recursion standing in for `n / 10`
well-founded recursion so that concrete instances evaluate by `decide`). -/
def natDecCharsAux : Nat → Nat → List Char
  | 0, _ => []
  | fuel + 1, n =>
    if n < 10 then [digitChar n]
    else natDecCharsAux fuel (n / 10) ++ [digitChar (n % 10)]

/-- Decimal digits of `n`, most significant first; `n + 1` fuel always
suffices. -/
def natDecChars (n : Nat) : List Char := natDecCharsAux (n + 1) n

/-- `snprintf(into, 64, "%ld", n)`: the sign, then the decimal digits of
the magnitude.  An `i64` prints in at most 20 characters, so the 64-byte
buffer never truncates. -/
def formatI64 (n : Int) : String :=
  if n < 0 then ⟨'-' :: natDecChars (-n).toNat⟩ else ⟨natDecChars n.toNat⟩

/-- The characters `isspace` accepts in the C locale. -/
def isSpaceChar (c : Char) : Bool :=
  c = ' ' ∨ c = '\t' ∨ c = '\n' ∨ c = '\r' ∨ c = '\x0b' ∨ c = '\x0c'

/-- Skip leading whitespace, as `strtol` does. -/
def skipSpaces : List Char → List Char
  | c :: cs => if isSpaceChar c then skipSpaces cs else c :: cs
  | [] => []

/-- Consume an optional sign, returning whether the value is negated. -/
def splitSign : List Char → Bool × List Char
  | c :: cs =>
    if c = '-' then (true, cs)
    else if c = '+' then (false, cs)
    else (false, c :: cs)
  | [] => (false, [])

/-- The value of `c` as a digit in base `b ≤ 16`, if it is one. -/
def digitValB (b : Nat) (c : Char) : Option Nat :=
  let v :=
    if 48 ≤ c.toNat ∧ c.toNat ≤ 57 then some (c.toNat - 48)
    else if 97 ≤ c.toNat ∧ c.toNat ≤ 102 then some (c.toNat - 87)
    else if 65 ≤ c.toNat ∧ c.toNat ≤ 70 then some (c.toNat - 55)
    else none
  match v with
  | some d => if d < b then some d else none
  | none => none

/-- Accumulate the longest prefix of base-`b` digits, as `strtol`'s main
loop does. -/
def parseDigits (b : Nat) : List Char → Nat → Nat
  | c :: cs, acc =>
    match digitValB b c with
    | some d => parseDigits b cs (acc * b + d)
    | none => acc
  | [], acc => acc

/-- Magnitude parsing of `strtol(s, 0, 0)` after sign handling: `0x`/`0X`
followed by a hex digit selects base 16, a leading `0` selects base 8
(a bare `"0"` parses as zero), anything else base 10. -/
def strtolMagnitude (cs : List Char) : Nat :=
  match cs with
  | [] => 0
  | c0 :: rest0 =>
    if c0 = '0' then
      match rest0 with
      | [] => 0
      | c1 :: rest1 =>
        if c1 = 'x' ∨ c1 = 'X' then
          match rest1 with
          | [] => 0
          | c2 :: _ => if (digitValB 16 c2).isSome then parseDigits 16 rest1 0 else 0
        else parseDigits 8 rest0 0
    else parseDigits 10 cs 0

/-- Clamp to the `long` range, as `strtol` does on overflow. -/
def clampI64 (x : Int) : Int :=
  if x < i64min then i64min else if i64max < x then i64max else x

/-- Model of C `strtol(s, 0, 0)`: skip whitespace, read an optional sign,
detect the base, accumulate digits, negate, clamp. -/
def strtolModel (s : String) : Int :=
  let cs := skipSpaces s.data
  let sign := splitSign cs
  let mag := strtolMagnitude sign.2
  clampI64 (if sign.1 then -(mag : Int) else (mag : Int))

/-- `supStringToNumberBuiltin`: pop the callable slot, check the operand's
discriminant (fatal with `string_to_number_error` otherwise — the process
exits there), else convert with `strtol` and leave a number in the cache. -/
def supStringToNumberBuiltin (s : RtState) : RtState :=
  let i1 := s.stack_index - 1
  let operand := s.stack i1
  if operand.type = .string then
    { s with stack_index := i1
             top := ⟨.number, .num (strtolModel (asString operand.v))⟩ }
  else fatalError string_to_number_error { s with stack_index := i1 }

/-- `supNumberToStringBuiltin`: pop the callable slot, format the operand's
payload with `%ld`, `strdup` the buffer into the cache. -/
def supNumberToStringBuiltin (s : RtState) : RtState :=
  let i1 := s.stack_index - 1
  let n := asNumber (s.stack i1).v
  { s with stack_index := i1
           top := ⟨.string, .str (formatI64 n)⟩ }

/-- `supPutStringBuiltin`: pop the callable slot, check the operand's
discriminant (fatal, reusing `string_to_number_error`, otherwise), else
`puts` the text and leave its length in the cache. -/
def supPutStringBuiltin (s : RtState) : RtState :=
  let i1 := s.stack_index - 1
  let operand := s.stack i1
  if operand.type = .string then
    { s with stack_index := i1
             output := s.output ++ [asString operand.v]
             top := ⟨.number, .num ((asString operand.v).length : Int)⟩ }
  else fatalError string_to_number_error { s with stack_index := i1 }

/-- `supCall`: `top.type->func()`.  The `type_number` and `type_string`
descriptors point at unconditional `fatalError` stubs; each builtin
descriptor points at its builtin; a lambda descriptor points at
compiler-generated code outside this runtime library (left as the identity
here, no claim invokes a lambda), and calling through a zero-initialized
(null) descriptor is undefined behaviour in C. -/
def supCall (s : RtState) : RtState :=
  match s.top.type with
  | .number => fatalError call_number_error s
  | .string => fatalError call_string_error s
  | .builtinAdd => supAddBuiltin s
  | .builtinSubtract => supSubtractBuiltin s
  | .builtinEquals => supEqualsBuiltin s
  | .builtinBitwiseOr => supBitwiseOrBuiltin s
  | .builtinBitwiseAnd => supBitwiseAndBuiltin s
  | .builtinLessThan => supLessThanBuiltin s
  | .builtinProgramArgument => supProgramArgumentBuiltin s
  | .builtinStringToNumber => supStringToNumberBuiltin s
  | .builtinNumberToString => supNumberToStringBuiltin s
  | .builtinPutString => supPutStringBuiltin s
  | .lambda _ => s
  | .nullDesc => s

/-- The runtime operations compiled code can invoke, one per `sup*`
procedure of the header. -/
inductive Op where
  | pushNumber (n : Int)
  | pushString (s : String)
  | pushCallable (t : TypeDesc)
  | dup
  | drop
  | bind
  | bindCaptured
  | get (n : Nat)
  | set (n : Nat)
  | getCaptured (n : Nat)
  | setCaptured (n : Nat)
  | call

/-- One operation applied to the state. -/
def step : Op → RtState → RtState
  | .pushNumber n, s => supPushNumber n s
  | .pushString str, s => supPushString str s
  | .pushCallable t, s => supPushLambda t s
  | .dup, s => supStackDup s
  | .drop, s => supStackDrop s
  | .bind, s => supBind s
  | .bindCaptured, s => supBindCaptured s
  | .get n, s => supGet n s
  | .set n, s => supSet n s
  | .getCaptured n, s => supGetCaptured n s
  | .setCaptured n, s => supSetCaptured n s
  | .call, s => supCall s

/-- Run a straight-line sequence of operations.  Once `fatalError` has
recorded a message the process has exited, so no further operation
executes. -/
def run : List Op → RtState → RtState
  | [], s => s
  | op :: ops, s => if s.crash_message.isSome then s else run ops (step op s)

/-! ### Helper lemmas -/

theorem setAt_eq (f : Nat → ManagedVariable) (i : Nat) (v : ManagedVariable) :
    setAt f i v i = v := by
  simp [setAt]

theorem setAt_ne (f : Nat → ManagedVariable) (i : Nat) (v : ManagedVariable)
    (j : Nat) (h : j ≠ i) : setAt f i v j = f j := by
  simp [setAt, h]

theorem wrap64_eq (x : Int) (h1 : i64min ≤ x) (h2 : x ≤ i64max) : wrap64 x = x := by
  simp only [wrap64, toBits, ofBits, i64min, i64max] at *
  norm_num at *
  split <;> omega

theorem run_halted (ops : List Op) (s : RtState) (h : s.crash_message.isSome) :
    run ops s = s := by
  cases ops with
  | nil => rfl
  | cons op ops => simp [run, h]

theorem digitChar_val (d : Nat) (hd : d < 10) :
    digitValB 10 (digitChar d) = some d := by
  interval_cases d <;> decide

theorem digitChar_not_space (d : Nat) (hd : d < 10) :
    isSpaceChar (digitChar d) = false := by
  interval_cases d <;> decide

theorem digitChar_not_sign (d : Nat) (hd : d < 10) :
    digitChar d ≠ '-' ∧ digitChar d ≠ '+' := by
  interval_cases d <;> decide

theorem digitChar_zero_iff (d : Nat) (hd : d < 10) :
    digitChar d = '0' ↔ d = 0 := by
  interval_cases d <;> decide

theorem parseDigits_natDecCharsAux (fuel : Nat) :
    ∀ (n : Nat), n < fuel → ∀ (rest : List Char) (acc : Nat),
      parseDigits 10 (natDecCharsAux fuel n ++ rest) acc
        = parseDigits 10 rest (acc * 10 ^ (natDecCharsAux fuel n).length + n) := by
  induction fuel with
  | zero => intro n hn; omega
  | succ fuel ih =>
    intro n hn rest acc
    by_cases h10 : n < 10
    · simp only [natDecCharsAux, if_pos h10, List.singleton_append,
        List.length_singleton, pow_one]
      simp [parseDigits, digitChar_val n h10]
    · have hrec : n / 10 < fuel := by
        have := Nat.div_lt_self (by omega : 0 < n) (by omega : 1 < 10)
        omega
      simp only [natDecCharsAux, if_neg h10]
      rw [List.append_assoc, List.singleton_append,
        ih (n / 10) hrec (digitChar (n % 10) :: rest) acc]
      have hm : n % 10 < 10 := Nat.mod_lt _ (by omega)
      simp only [parseDigits, digitChar_val (n % 10) hm]
      rw [List.length_append, List.length_singleton, pow_succ]
      congr 1
      have hdm := Nat.div_add_mod n 10
      set L := (natDecCharsAux fuel (n / 10)).length
      ring_nf
      omega

theorem natDecCharsAux_head (fuel : Nat) :
    ∀ (n : Nat), n < fuel → ∃ d rest, natDecCharsAux fuel n = digitChar d :: rest
      ∧ d < 10 ∧ (0 < n → 0 < d) := by
  induction fuel with
  | zero => intro n hn; omega
  | succ fuel ih =>
    intro n hn
    by_cases h10 : n < 10
    · exact ⟨n, [], by simp [natDecCharsAux, if_pos h10], h10, fun h => h⟩
    · have hrec : n / 10 < fuel := by
        have := Nat.div_lt_self (by omega : 0 < n) (by omega : 1 < 10)
        omega
      obtain ⟨d, rest, heq, hd, hpos⟩ := ih (n / 10) hrec
      refine ⟨d, rest ++ [digitChar (n % 10)], ?_, hd, fun _ => ?_⟩
      · simp [natDecCharsAux, if_neg h10, heq]
      · exact hpos (by omega)

theorem parse_natDecChars (m : Nat) :
    parseDigits 10 (natDecChars m) 0 = m := by
  have h := parseDigits_natDecCharsAux (m + 1) m (by omega) [] 0
  simpa [natDecChars, parseDigits] using h

/-- `strtol(s, 0, 0)` is a left inverse of `snprintf("%ld")` on the whole
signed 64-bit range. -/
theorem strtol_format (n : Int) (h1 : i64min ≤ n) (h2 : n ≤ i64max) :
    strtolModel (formatI64 n) = n := by
  rcases lt_trichotomy n 0 with hneg | hzero | hpos
  · have hm : 0 < (-n).toNat := by omega
    obtain ⟨d, rest, heq, hd, hdpos⟩ :=
      natDecCharsAux_head ((-n).toNat + 1) (-n).toNat (by omega)
    have hd0 : 0 < d := hdpos hm
    rw [show formatI64 n = ⟨'-' :: natDecChars (-n).toNat⟩ by
      simp [formatI64, if_pos hneg]]
    rw [strtolModel]
    have hdata : (⟨'-' :: natDecChars (-n).toNat⟩ : String).data
        = '-' :: natDecChars (-n).toNat := rfl
    rw [hdata]
    rw [show skipSpaces ('-' :: natDecChars (-n).toNat)
        = '-' :: natDecChars (-n).toNat by simp [skipSpaces, isSpaceChar]]
    rw [show splitSign ('-' :: natDecChars (-n).toNat)
        = (true, natDecChars (-n).toNat) by simp [splitSign]]
    have hmag : strtolMagnitude (natDecChars (-n).toNat) = (-n).toNat := by
      rw [show natDecChars (-n).toNat = digitChar d :: rest from heq]
      rw [strtolMagnitude.eq_def]
      dsimp only
      rw [if_neg (by
        rw [digitChar_zero_iff d hd]
        omega)]
      rw [← heq]
      exact parse_natDecChars (-n).toNat
    simp only [hmag]
    have hcast : ((( -n).toNat : Nat) : Int) = -n := Int.toNat_of_nonneg (by omega)
    rw [clampI64]
    simp only [if_true, hcast, neg_neg]
    simp only [i64min, i64max] at h1 h2 ⊢
    norm_num at h1 h2 ⊢
    split_ifs <;> omega
  · subst hzero; decide
  · have hm : 0 < n.toNat := by omega
    obtain ⟨d, rest, heq, hd, hdpos⟩ :=
      natDecCharsAux_head (n.toNat + 1) n.toNat (by omega)
    have hd0 : 0 < d := hdpos hm
    rw [show formatI64 n = ⟨natDecChars n.toNat⟩ by
      simp [formatI64, if_neg (by omega : ¬ n < 0)]]
    rw [strtolModel]
    have hdata : (⟨natDecChars n.toNat⟩ : String).data = natDecChars n.toNat := rfl
    rw [hdata]
    rw [show natDecChars n.toNat = digitChar d :: rest from heq]
    rw [show skipSpaces (digitChar d :: rest) = digitChar d :: rest by
      simp [skipSpaces, digitChar_not_space d hd]]
    rw [show splitSign (digitChar d :: rest) = (false, digitChar d :: rest) by
      simp [splitSign, (digitChar_not_sign d hd).1, (digitChar_not_sign d hd).2]]
    have hmag : strtolMagnitude (digitChar d :: rest) = n.toNat := by
      rw [strtolMagnitude.eq_def]
      dsimp only
      rw [if_neg (by
        rw [digitChar_zero_iff d hd]
        omega)]
      rw [← heq]
      exact parse_natDecChars n.toNat
    simp only [hmag]
    have hcast : ((n.toNat : Nat) : Int) = n := Int.toNat_of_nonneg (by omega)
    rw [clampI64]
    simp only [Bool.false_eq_true, if_false, hcast]
    simp only [i64min, i64max] at h1 h2 ⊢
    norm_num at h1 h2 ⊢
    split_ifs <;> omega

theorem get?_set_self (l : List HeapVariable) (a : Nat) (fr : HeapVariable)
    (ha : a < l.length) : (l.set a fr).get? a = some fr := by
  rw [List.get?_eq_get (by simpa using ha)]
  simp [List.get_set_eq]

theorem get?_set_ne' (l : List HeapVariable) (a b : Nat) (fr : HeapVariable)
    (hab : a ≠ b) : (l.set a fr).get? b = l.get? b := by
  rw [List.get?_set_ne _ _ hab]

/-- Overwriting only the payload of one frame does not change any
`previous`-link, so every chain walk reaches the same address. -/
theorem chainWalk_set_v (l : List HeapVariable) (a : Nat) (fr fr' : HeapVariable)
    (hget : l.get? a = some fr) (hprev : fr'.previous = fr.previous) :
    ∀ (n : Nat) (c : Option Nat), chainWalk (l.set a fr') c n = chainWalk l c n := by
  intro n
  induction n with
  | zero => intro c; cases c <;> rfl
  | succ n ih =>
    intro c
    cases c with
    | none => rfl
    | some b =>
      simp only [chainWalk]
      by_cases hab : a = b
      · subst hab
        have ha : a < l.length := by
          by_contra hcon
          rw [List.get?_eq_none.2 (by omega)] at hget
          exact Option.noConfusion hget
        simp only [get?_set_self l a fr' ha, hget, hprev]
        exact ih _
      · rw [get?_set_ne' l a b fr' hab]
        cases hb : l.get? b with
        | none => simp [hb]
        | some frb => simp only [hb]; exact ih _

/-! ### Claim theorems -/

/-- Claim C1 (code_bug evidence): the collector described by the
specification does not exist in the source.  `gcAlloc` only calls
`malloc` (its own comment: "We leak right now.  I will implement a
copying gc later."), so every `supBindCaptured` appends a fresh frame and
nothing is ever reclaimed or moved: concretely, starting from a heap
whose single frame is unreachable from every root, three further captures
leave that unreachable frame in the heap untouched, with no error and no
collection. -/
theorem gc_never_reclaims :
    (∀ s : RtState,
      (supBindCaptured s).frames = s.frames ++ [⟨s.context_stack, s.top⟩]
      ∧ (supBindCaptured s).context_stack = some s.frames.length
      ∧ (supBindCaptured s).crash_message = s.crash_message)
    ∧ ((run [.pushNumber 1, .bindCaptured, .pushNumber 2, .bindCaptured,
             .pushNumber 3, .bindCaptured]
          { initState [] with frames := [⟨none, ⟨.number, .num 77⟩⟩] }).frames.get? 0
        = some ⟨none, ⟨.number, .num 77⟩⟩
      ∧ (run [.pushNumber 1, .bindCaptured, .pushNumber 2, .bindCaptured,
              .pushNumber 3, .bindCaptured]
           { initState [] with frames := [⟨none, ⟨.number, .num 77⟩⟩] }).frames.length = 4
      ∧ (run [.pushNumber 1, .bindCaptured, .pushNumber 2, .bindCaptured,
              .pushNumber 3, .bindCaptured]
           { initState [] with frames := [⟨none, ⟨.number, .num 77⟩⟩] }).crash_message
        = none) := by
  exact ⟨fun s => ⟨rfl, rfl, rfl⟩, by decide⟩

/-- Claim C2 (counterexample): `bind` immediately followed by `get 1` does
not push the just-bound value (it pushes the slot below it, here the
zero-initialized slot 0), and `bind`, `bind`, `get 2` does not push the
first of the two bound values. -/
theorem bind_get_one_counterexample :
    (run [.pushNumber 7, .bind, .get 1] (initState [])).top
      ≠ ⟨.number, .num 7⟩
    ∧ (run [.pushNumber 1, .bind, .pushNumber 2, .bind, .get 2] (initState [])).top
      ≠ ⟨.number, .num 1⟩ := by
  decide

/-- Claim C2 (amended): binding offsets are zero-based, not one-based:
`bind` stores the bound value at the incremented `binds_index` while
`get n` reads `binds[binds_index - n]`, so `bind` then `get 0` pushes the
just-bound value, and `bind v1`, `bind v2`, `get 1` pushes `v1`, the
first of the two. -/
theorem bind_get_zero_based (s : RtState) (v2 : Int)
    (hc : s.crash_message = none) (hsi : 1 ≤ s.stack_index) :
    (run [.bind, .get 0] s).top = s.top
    ∧ (run [.bind, .get 0] s).stack_index = s.stack_index
    ∧ (run [.bind, .pushNumber v2, .bind, .get 1] s).top = s.top := by
  simp only [run, step, hc, Option.isSome_none, Bool.false_eq_true, if_false,
    supBind, supGet, supPushNumber, supStackDup, supStackDrop]
  have e0 : s.binds_index + 1 - 0 = s.binds_index + 1 := by omega
  have e1 : s.binds_index + 1 + 1 - 1 = s.binds_index + 1 := by omega
  rw [e0, e1, setAt_eq, setAt_ne _ _ _ _ (by omega), setAt_eq]
  exact ⟨rfl, by omega, rfl⟩

/-- Witness for the amended C2 at a concrete state: push 7, bind it, read
it back with offset 0; and with 8 bound above it, read it back with
offset 1. -/
theorem bind_get_zero_based_witness :
    (run [.bind, .get 0] (supPushNumber 7 (initState []))).top = ⟨.number, .num 7⟩
    ∧ (run [.bind, .pushNumber 8, .bind, .get 1]
        (supPushNumber 7 (initState []))).top = ⟨.number, .num 7⟩ := by
  have h := bind_get_zero_based (supPushNumber 7 (initState [])) 8 rfl (by decide)
  exact ⟨h.1.trans (by decide), h.2.2.trans (by decide)⟩

/-- Claim C3 (counterexample): a push executed with the stack already at
its 1024-slot capacity signals no error at all — there is no capacity
check in the source — and simply increments `stack_index` past the array
(an out-of-bounds write, undefined behaviour in C), for every push
operation. -/
theorem stack_overflow_unchecked_counterexample :
    ((supPushNumber 5 { initState [] with stack_index := 1024 }).crash_message = none
      ∧ (supPushNumber 5 { initState [] with stack_index := 1024 }).stack_index = 1025)
    ∧ (supPushString "x" { initState [] with stack_index := 1024 }).crash_message = none
    ∧ (supPushLambda (.lambda 0) { initState [] with stack_index := 1024 }).crash_message = none
    ∧ (supStackDup { initState [] with stack_index := 1024 }).crash_message = none := by
  decide

/-- Claim C3 (amended): the push operations perform no capacity check
whatsoever: in every state — at capacity or not — they leave the crash
message untouched and unconditionally increment `stack_index`; exceeding
the 1024-slot array is an unchecked out-of-bounds write (undefined
behaviour), not a fatal "stack overflow" error, and no such error message
exists in the runtime. -/
theorem push_ops_no_capacity_check (s : RtState) (n : Int) (str : String)
    (t : TypeDesc) :
    ((supPushNumber n s).crash_message = s.crash_message
      ∧ (supPushNumber n s).stack_index = s.stack_index + 1)
    ∧ ((supPushString str s).crash_message = s.crash_message
      ∧ (supPushString str s).stack_index = s.stack_index + 1)
    ∧ ((supPushLambda t s).crash_message = s.crash_message
      ∧ (supPushLambda t s).stack_index = s.stack_index + 1)
    ∧ ((supStackDup s).crash_message = s.crash_message
      ∧ (supStackDup s).stack_index = s.stack_index + 1) := by
  exact ⟨⟨rfl, rfl⟩, ⟨rfl, rfl⟩, ⟨rfl, rfl⟩, ⟨rfl, rfl⟩⟩

/-- Claim C5 (counterexample): after two pushes the top-of-stack cache
does not equal `stack[stack_index - 1]` — the pushes leave the previous
top there and keep the new value only in the cache. -/
theorem top_cache_counterexample :
    (run [.pushNumber 1, .pushNumber 2] (initState [])).top
      ≠ (run [.pushNumber 1, .pushNumber 2] (initState [])).stack
          ((run [.pushNumber 1, .pushNumber 2] (initState [])).stack_index - 1) := by
  decide

/-- Claim C5 (amended): the cache `top` always holds the logical top of
stack, but the array relation claimed by the specification holds only for
`dup`: after `supStackDup`, `top = stack[stack_index - 1]`; after
`supStackDrop`, `top = stack[stack_index]`; and after the push operations
(`pushNumber`, `pushString`, `pushCallable`, `get`) the slot
`stack[stack_index - 1]` holds the previous top while the new value lives
only in the cache. -/
theorem top_cache_relations (s : RtState) (n : Int) (str : String)
    (t : TypeDesc) (m : Nat) :
    (supStackDup s).top = (supStackDup s).stack ((supStackDup s).stack_index - 1)
    ∧ (supStackDrop s).top = (supStackDrop s).stack (supStackDrop s).stack_index
    ∧ ((supPushNumber n s).top = ⟨.number, .num n⟩
      ∧ (supPushNumber n s).stack ((supPushNumber n s).stack_index - 1) = s.top)
    ∧ ((supPushString str s).top = ⟨.string, .str str⟩
      ∧ (supPushString str s).stack ((supPushString str s).stack_index - 1) = s.top)
    ∧ ((supPushLambda t s).top = ⟨t, .ctx s.context_stack⟩
      ∧ (supPushLambda t s).stack ((supPushLambda t s).stack_index - 1) = s.top)
    ∧ ((supGet m s).top = s.binds (s.binds_index - m)
      ∧ (supGet m s).stack ((supGet m s).stack_index - 1) = s.top) := by
  simp [supStackDup, supStackDrop, supPushNumber, supPushString, supPushLambda,
    supGet, setAt]

/-- Claim C4: closures capture by chain sharing.  A callable created by
`supPushLambda` snapshots the current chain head by reference, and when
two snapshots reach a common frame (a shared prefix of the chain),
overwriting that frame's payload through one snapshot via
`supSetCaptured` is observable through the other via `supGetCaptured`:
frames are shared structurally, never copied. -/
theorem closure_chain_sharing (s : RtState) (t : TypeDesc) (ca cb : Option Nat)
    (nA nB f : Nat) (_hsi : 1 ≤ s.stack_index)
    (hA : chainWalk s.frames ca nA = some f)
    (hB : chainWalk s.frames cb nB = some f)
    (hf : f < s.frames.length) :
    (supPushLambda t s).top = ⟨t, .ctx s.context_stack⟩
    ∧ (supGetCaptured nB
        { supSetCaptured nA { s with context_stack := ca } with
            context_stack := cb }).top
      = s.top := by
  refine ⟨rfl, ?_⟩
  have hfget : s.frames.get? f = some (s.frames.get ⟨f, hf⟩) := List.get?_eq_get hf
  simp only [supSetCaptured]
  simp only [hA]
  simp only [hfget]
  simp only [supGetCaptured, supStackDrop]
  have hwalk := chainWalk_set_v s.frames f (s.frames.get ⟨f, hf⟩)
    ⟨(s.frames.get ⟨f, hf⟩).previous, s.top⟩ hfget rfl nB cb
  simp only [hwalk, hB]
  have hgot := get?_set_self s.frames f
    ⟨(s.frames.get ⟨f, hf⟩).previous, s.top⟩ hf
  simp only [hgot]

/-- Witness for C4: capture the number 10 into frame 0, create two
closures A and B both snapshotting that frame, push 99, write it through
A's snapshot with `setCaptured 0`, and read 99 back through B's
snapshot with `getCaptured 0`. -/
theorem closure_chain_sharing_witness :
    (supGetCaptured 0
      { supSetCaptured 0
          { run [.pushNumber 10, .bindCaptured, .pushCallable (.lambda 0),
                 .pushCallable (.lambda 1), .pushNumber 99] (initState [])
            with context_stack := some 0 }
        with context_stack := some 0 }).top = ⟨.number, .num 99⟩ := by
  have h := closure_chain_sharing
    (run [.pushNumber 10, .bindCaptured, .pushCallable (.lambda 0),
          .pushCallable (.lambda 1), .pushNumber 99] (initState []))
    (.lambda 0) (some 0) (some 0) 0 0 0 (by decide) (by decide) (by decide)
    (by decide)
  exact h.2.trans (by decide)

/-- Claim C6: with `x` pushed first and `y` second, each binary builtin
invoked through `supCall` consumes its two operands (and the callable
value) and pushes exactly one Number, for all `i64` operands with no side
condition: `equals` pushes 1 iff `x = y`, `less_than` pushes 1 iff
`x < y`, `bitwise_and` and `bitwise_or` push the two's-complement bitwise
combination, and `add`/`subtract` push the two's-complement sum and
difference — equal to the exact `x + y` and `x - y` whenever that result
is representable (when it is not, the C signed arithmetic is undefined
behaviour and the model wraps); the net stack depth is one more than
before the operands were pushed. -/
theorem binary_builtins_correct (s : RtState) (x y : Int)
    (h : s.crash_message = none) :
    ((run [.pushNumber x, .pushNumber y, .pushCallable .builtinAdd, .call] s).top
        = ⟨.number, .num (wrap64 (x + y))⟩
      ∧ (i64min ≤ x + y → x + y ≤ i64max →
        (run [.pushNumber x, .pushNumber y, .pushCallable .builtinAdd, .call] s).top
          = ⟨.number, .num (x + y)⟩)
      ∧ (run [.pushNumber x, .pushNumber y, .pushCallable .builtinAdd, .call] s).stack_index
        = s.stack_index + 1
      ∧ (run [.pushNumber x, .pushNumber y, .pushCallable .builtinAdd, .call] s).crash_message
        = none)
    ∧ ((run [.pushNumber x, .pushNumber y, .pushCallable .builtinSubtract, .call] s).top
        = ⟨.number, .num (wrap64 (x - y))⟩
      ∧ (i64min ≤ x - y → x - y ≤ i64max →
        (run [.pushNumber x, .pushNumber y, .pushCallable .builtinSubtract, .call] s).top
          = ⟨.number, .num (x - y)⟩)
      ∧ (run [.pushNumber x, .pushNumber y, .pushCallable .builtinSubtract, .call] s).stack_index
        = s.stack_index + 1)
    ∧ ((run [.pushNumber x, .pushNumber y, .pushCallable .builtinEquals, .call] s).top
        = ⟨.number, .num (if x = y then 1 else 0)⟩
      ∧ (run [.pushNumber x, .pushNumber y, .pushCallable .builtinEquals, .call] s).stack_index
        = s.stack_index + 1)
    ∧ ((run [.pushNumber x, .pushNumber y, .pushCallable .builtinLessThan, .call] s).top
        = ⟨.number, .num (if x < y then 1 else 0)⟩
      ∧ (run [.pushNumber x, .pushNumber y, .pushCallable .builtinLessThan, .call] s).stack_index
        = s.stack_index + 1)
    ∧ ((run [.pushNumber x, .pushNumber y, .pushCallable .builtinBitwiseAnd, .call] s).top
        = ⟨.number, .num (i64and x y)⟩
      ∧ (run [.pushNumber x, .pushNumber y, .pushCallable .builtinBitwiseAnd, .call] s).stack_index
        = s.stack_index + 1)
    ∧ ((run [.pushNumber x, .pushNumber y, .pushCallable .builtinBitwiseOr, .call] s).top
        = ⟨.number, .num (i64or x y)⟩
      ∧ (run [.pushNumber x, .pushNumber y, .pushCallable .builtinBitwiseOr, .call] s).stack_index
        = s.stack_index + 1) := by
  simp only [run, step, h, Option.isSome_none, Bool.false_eq_true, if_false,
    supPushNumber, supPushLambda, supStackDup, supCall, supAddBuiltin,
    supSubtractBuiltin, supEqualsBuiltin, supLessThanBuiltin,
    supBitwiseAndBuiltin, supBitwiseOrBuiltin]
  have e1 : s.stack_index + 1 + 1 + 1 - 1 = s.stack_index + 1 + 1 := by omega
  have e2 : s.stack_index + 1 + 1 + 1 - 2 = s.stack_index + 1 := by omega
  rw [e1, e2]
  simp only [setAt_eq]
  rw [setAt_ne _ _ _ _ (by omega)]
  simp only [setAt_eq, asNumber]
  rw [Int.add_comm y x]
  refine ⟨⟨?_, ?_, ?_, ?_⟩, ⟨?_, ?_, ?_⟩, ⟨?_, ?_⟩, ⟨?_, ?_⟩, ⟨?_, ?_⟩, ⟨?_, ?_⟩⟩ <;>
    first
    | trivial
    | (intro hlo hhi; rw [wrap64_eq _ hlo hhi])

/-- Witness for C6: the seven concrete cases named by the specification:
`add(2,3) = 5`, `subtract(5,2) = 3`, `equals(4,4) = 1`, `equals(4,5) = 0`,
`less_than(2,3) = 1`, `bitwise_and(6,3) = 2`, `bitwise_or(6,1) = 7`. -/
theorem binary_builtins_examples :
    (run [.pushNumber 2, .pushNumber 3, .pushCallable .builtinAdd, .call]
        (initState [])).top = ⟨.number, .num 5⟩
    ∧ (run [.pushNumber 5, .pushNumber 2, .pushCallable .builtinSubtract, .call]
        (initState [])).top = ⟨.number, .num 3⟩
    ∧ (run [.pushNumber 4, .pushNumber 4, .pushCallable .builtinEquals, .call]
        (initState [])).top = ⟨.number, .num 1⟩
    ∧ (run [.pushNumber 4, .pushNumber 5, .pushCallable .builtinEquals, .call]
        (initState [])).top = ⟨.number, .num 0⟩
    ∧ (run [.pushNumber 2, .pushNumber 3, .pushCallable .builtinLessThan, .call]
        (initState [])).top = ⟨.number, .num 1⟩
    ∧ (run [.pushNumber 6, .pushNumber 3, .pushCallable .builtinBitwiseAnd, .call]
        (initState [])).top = ⟨.number, .num 2⟩
    ∧ (run [.pushNumber 6, .pushNumber 1, .pushCallable .builtinBitwiseOr, .call]
        (initState [])).top = ⟨.number, .num 7⟩ := by
  have h23 := binary_builtins_correct (initState []) 2 3 rfl
  have h52 := binary_builtins_correct (initState []) 5 2 rfl
  have h44 := binary_builtins_correct (initState []) 4 4 rfl
  have h45 := binary_builtins_correct (initState []) 4 5 rfl
  have h63 := binary_builtins_correct (initState []) 6 3 rfl
  have h61 := binary_builtins_correct (initState []) 6 1 rfl
  exact ⟨(h23.1.2.1 (by decide) (by decide)).trans (by decide),
    (h52.2.1.2.1 (by decide) (by decide)).trans (by decide),
    h44.2.2.1.1.trans (by decide), h45.2.2.1.1.trans (by decide),
    h23.2.2.2.1.1.trans (by decide), h63.2.2.2.2.1.1.trans (by decide),
    h61.2.2.2.2.2.1.trans (by decide)⟩

/-- Claim C7: `number_to_string` followed by `string_to_number` is the
identity on every `i64`: formatting the number with `%ld` and parsing
the resulting String with `strtol` pushes the original number back, with
no error and the expected net stack depth. -/
theorem number_string_roundtrip (s : RtState) (n : Int)
    (h : s.crash_message = none) (h1 : i64min ≤ n) (h2 : n ≤ i64max) :
    (run [.pushNumber n, .pushCallable .builtinNumberToString, .call,
          .pushCallable .builtinStringToNumber, .call] s).top = ⟨.number, .num n⟩
    ∧ (run [.pushNumber n, .pushCallable .builtinNumberToString, .call,
          .pushCallable .builtinStringToNumber, .call] s).stack_index
        = s.stack_index + 1
    ∧ (run [.pushNumber n, .pushCallable .builtinNumberToString, .call,
          .pushCallable .builtinStringToNumber, .call] s).crash_message = none := by
  simp only [run, step, h, Option.isSome_none, Bool.false_eq_true, if_false,
    supPushNumber, supPushLambda, supStackDup, supCall,
    supNumberToStringBuiltin, supStringToNumberBuiltin]
  simp only [Nat.add_sub_cancel, setAt_eq]
  simp only [asNumber, asString]
  rw [strtol_format n h1 h2]
  exact ⟨rfl, rfl, rfl⟩

/-- Witness for C7: `number_to_string(42)` round-trips through
`string_to_number` back to `42`. -/
theorem number_string_roundtrip_witness :
    (run [.pushNumber 42, .pushCallable .builtinNumberToString, .call,
          .pushCallable .builtinStringToNumber, .call] (initState [])).top
      = ⟨.number, .num 42⟩ := by
  exact (number_string_roundtrip (initState []) 42 rfl (by decide) (by decide)).1

/-- Claim C8: `read-nth-program-argument` with an index outside
`[0, program_args_count)` records the fatal `too_few_arguments_error` and
no further operation executes (the process has exited); with the index in
range it pushes the requested argument as a String. -/
theorem program_argument_builtin_spec (s : RtState) (i : Int)
    (h : s.crash_message = none) :
    ((i < 0 ∨ (s.program_args.length : Int) ≤ i) →
      (run [.pushNumber i, .pushCallable .builtinProgramArgument, .call] s).crash_message
        = some too_few_arguments_error
      ∧ ∀ ops, run ops
          (run [.pushNumber i, .pushCallable .builtinProgramArgument, .call] s)
          = run [.pushNumber i, .pushCallable .builtinProgramArgument, .call] s)
    ∧ (0 ≤ i → i < (s.program_args.length : Int) →
      (run [.pushNumber i, .pushCallable .builtinProgramArgument, .call] s).crash_message
        = none
      ∧ (run [.pushNumber i, .pushCallable .builtinProgramArgument, .call] s).top
          = ⟨.string, .str (s.program_args.getD i.toNat "")⟩
      ∧ (run [.pushNumber i, .pushCallable .builtinProgramArgument, .call] s).stack_index
          = s.stack_index + 1) := by
  simp only [run, step, h, Option.isSome_none, Bool.false_eq_true, if_false,
    supPushNumber, supPushLambda, supStackDup, supStackDrop, supCall,
    supProgramArgumentBuiltin, supPushString, fatalError]
  simp only [Nat.add_sub_cancel, setAt_eq]
  simp only [asNumber]
  constructor
  · intro hout
    rw [if_pos hout]
    exact ⟨rfl, fun ops => run_halted ops _ rfl⟩
  · intro h0 hlen
    rw [if_neg (by omega)]
    exact ⟨rfl, rfl, rfl⟩

/-- Witness for C8: with a single program argument `"x"`, index 5 records
the fatal message and index 0 pushes the argument string. -/
theorem program_argument_builtin_witness :
    (run [.pushNumber 5, .pushCallable .builtinProgramArgument, .call]
        (initState ["x"])).crash_message = some too_few_arguments_error
    ∧ (run [.pushNumber 0, .pushCallable .builtinProgramArgument, .call]
        (initState ["x"])).top = ⟨.string, .str "x"⟩ := by
  refine ⟨((program_argument_builtin_spec (initState ["x"]) 5 rfl).1
    (by decide)).1, ?_⟩
  have h := ((program_argument_builtin_spec (initState ["x"]) 0 rfl).2
    (by decide) (by decide)).2.1
  exact h.trans (by decide)

/-- Claim C9: the six binary numeric builtins check no discriminant and
never signal an error: whatever values sit in the two operand slots —
numbers, strings or callables — each builtin reads the payloads as
numbers, leaves the crash message untouched, and replaces the operands by
a single value tagged Number. -/
theorem binary_builtins_no_type_check (s : RtState)
    (h : s.crash_message = none) (_hsi : 2 ≤ s.stack_index) :
    ((run [.pushCallable .builtinAdd, .call] s).crash_message = none
      ∧ (run [.pushCallable .builtinAdd, .call] s).top.type = .number
      ∧ (run [.pushCallable .builtinAdd, .call] s).stack_index = s.stack_index - 1)
    ∧ ((run [.pushCallable .builtinSubtract, .call] s).crash_message = none
      ∧ (run [.pushCallable .builtinSubtract, .call] s).top.type = .number
      ∧ (run [.pushCallable .builtinSubtract, .call] s).stack_index = s.stack_index - 1)
    ∧ ((run [.pushCallable .builtinEquals, .call] s).crash_message = none
      ∧ (run [.pushCallable .builtinEquals, .call] s).top.type = .number
      ∧ (run [.pushCallable .builtinEquals, .call] s).stack_index = s.stack_index - 1)
    ∧ ((run [.pushCallable .builtinLessThan, .call] s).crash_message = none
      ∧ (run [.pushCallable .builtinLessThan, .call] s).top.type = .number
      ∧ (run [.pushCallable .builtinLessThan, .call] s).stack_index = s.stack_index - 1)
    ∧ ((run [.pushCallable .builtinBitwiseAnd, .call] s).crash_message = none
      ∧ (run [.pushCallable .builtinBitwiseAnd, .call] s).top.type = .number
      ∧ (run [.pushCallable .builtinBitwiseAnd, .call] s).stack_index = s.stack_index - 1)
    ∧ ((run [.pushCallable .builtinBitwiseOr, .call] s).crash_message = none
      ∧ (run [.pushCallable .builtinBitwiseOr, .call] s).top.type = .number
      ∧ (run [.pushCallable .builtinBitwiseOr, .call] s).stack_index = s.stack_index - 1) := by
  simp only [run, step, h, Option.isSome_none, Bool.false_eq_true, if_false,
    supPushLambda, supStackDup, supCall, supAddBuiltin, supSubtractBuiltin,
    supEqualsBuiltin, supLessThanBuiltin, supBitwiseAndBuiltin,
    supBitwiseOrBuiltin]
  refine ⟨⟨?_, ?_, ?_⟩, ⟨?_, ?_, ?_⟩, ⟨?_, ?_, ?_⟩, ⟨?_, ?_, ?_⟩, ⟨?_, ?_, ?_⟩,
    ⟨?_, ?_, ?_⟩⟩ <;> trivial

/-- Witness for C9: applying `add` to a String operand and a Number
operand raises no error and produces a Number. -/
theorem binary_builtins_no_type_check_witness :
    (run [.pushCallable .builtinAdd, .call]
        (run [.pushString "hi", .pushNumber 3] (initState []))).crash_message = none
    ∧ (run [.pushCallable .builtinAdd, .call]
        (run [.pushString "hi", .pushNumber 3] (initState []))).top.type
      = .number := by
  have h := binary_builtins_no_type_check
    (run [.pushString "hi", .pushNumber 3] (initState [])) rfl (by decide)
  exact ⟨h.1.1, h.1.2.1⟩

/-- Claim C10: `put_string` applied to a non-String value records the
`string_to_number_error` message — literally "could not convert string to
number", reused from the string-to-number builtin — not a print-specific
message. -/
theorem put_string_error_message (s : RtState)
    (h : s.crash_message = none) (ht : s.top.type ≠ .string) :
    (run [.pushCallable .builtinPutString, .call] s).crash_message
      = some string_to_number_error
    ∧ string_to_number_error = "could not convert string to number" := by
  simp only [run, step, h, Option.isSome_none, Bool.false_eq_true, if_false,
    supPushLambda, supStackDup, supCall, supPutStringBuiltin]
  rw [Nat.add_sub_cancel, setAt_eq]
  rw [if_neg ht]
  exact ⟨rfl, rfl⟩

/-- Witness for C10: printing a Number records exactly the
string-to-number conversion message. -/
theorem put_string_error_message_witness :
    (run [.pushCallable .builtinPutString, .call]
        (supPushNumber 5 (initState []))).crash_message
      = some string_to_number_error := by
  exact (put_string_error_message (supPushNumber 5 (initState [])) rfl
    (by decide)).1

end LolRuntime
